import Mathlib

/-!
Verification of the blackjack round engine in `src/main.rs`.

The game state lives in loop-local variables of `main` (card-slot textures,
label texts, button `enabled` flags, `numofhits`, `playertotal`,
`dealertotal`).  One iteration of the render loop is modelled as one `step`:
the top-of-loop hit guard (main.rs:136-138) followed by at most one button
click.  A `TextButton.click()` returns
`is_hovered && self.enabled && is_mouse_button_pressed` (text_button.rs:351),
and the four buttons occupy pairwise disjoint rectangles, so at most one
button can fire per frame and a disabled button never fires.

Rust `i32` values that the program keeps non-negative (`numofhits`,
`playertotal`, `dealertotal`) are modelled as `Nat`; the win counters are
kept, as in the source, only as the text of their labels.  The fallible
`parse::<i32>().unwrap()` and the (debug-semantics) overflowing `+ 1` are
modelled by an `Option`-valued settlement: a panic has no successor state.
-/

namespace Blackjack

/-- Card texture table from main.rs:41-95: 52 real cards at indices 0..51,
followed by the pushed `assets/empty.png` at index 52. -/
def cards : List String := [
  "assets/Two-of-clubs.png",
  "assets/Two-of-hearts.png",
  "assets/Two-of-spades.png",
  "assets/Two-of-diamonds.png",
  "assets/Three-of-hearts.png",
  "assets/Three-of-diamonds.png",
  "assets/Three-of-clubs.png",
  "assets/Three-of-spades.png",
  "assets/Four-of-hearts.png",
  "assets/Four-of-diamonds.png",
  "assets/Four-of-clubs.png",
  "assets/Four-of-spades.png",
  "assets/Five-of-hearts.png",
  "assets/Five-of-diamonds.png",
  "assets/Five-of-clubs.png",
  "assets/Five-of-spades.png",
  "assets/Six-of-hearts.png",
  "assets/Six-of-diamonds.png",
  "assets/Six-of-spades.png",
  "assets/Six-of-clubs.png",
  "assets/Seven-of-hearts.png",
  "assets/Seven-of-diamonds.png",
  "assets/Seven-of-clubs.png",
  "assets/Seven-of-spades.png",
  "assets/Eight-of-hearts.png",
  "assets/Eight-of-diamonds.png",
  "assets/Eight-of-spades.png",
  "assets/Eight-of-clubs.png",
  "assets/Nine-of-hearts.png",
  "assets/Nine-of-diamonds.png",
  "assets/Nine-of-clubs.png",
  "assets/Nine-of-spades.png",
  "assets/Ten-of-hearts.png",
  "assets/Ten-of-diamonds.png",
  "assets/Ten-of-spades.png",
  "assets/Ten-of-clubs.png",
  "assets/Ace-of-hearts.png",
  "assets/Ace-of-diamonds.png",
  "assets/Ace-of-spades.png",
  "assets/Ace-of-clubs.png",
  "assets/Jack-of-hearts.png",
  "assets/Jack-of-diamonds.png",
  "assets/Jack-of-spades.png",
  "assets/Jack-of-clubs.png",
  "assets/Queen-of-hearts.png",
  "assets/Queen-of-diamonds.png",
  "assets/Queen-of-spades.png",
  "assets/Queen-of-clubs.png",
  "assets/King-of-hearts.png",
  "assets/King-of-diamonds.png",
  "assets/King-of-spades.png",
  "assets/King-of-clubs.png",
  "assets/empty.png"]

/-- Score table from main.rs:96-100: point value of `cards[i]`, with the
pushed `0` for the empty slot at index 52. -/
def scores : List Nat := [
  2, 2, 2, 2, 3, 3, 3, 3, 4, 4, 4, 4, 5, 5, 5, 5, 6, 6, 6, 6,
  7, 7, 7, 7, 8, 8, 8, 8, 9, 9, 9, 9, 10, 10, 10, 10, 11, 11, 11, 11,
  10, 10, 10, 10, 10, 10, 10, 10, 10, 10, 10, 10, 0]

/-- Rank word of a card texture path: the segment of the file name between
the directory prefix `assets/` (7 characters) and the first dash. -/
def rankWord (name : String) : String :=
  String.mk ((name.data.drop 7).takeWhile (fun c => c ≠ '-'))

/-- Blackjack point value of a rank word: 2-10 at face value, Jack, Queen
and King at 10, Ace at 11. -/
def rankValue (r : String) : Nat :=
  if r = "Two" then 2
  else if r = "Three" then 3
  else if r = "Four" then 4
  else if r = "Five" then 5
  else if r = "Six" then 6
  else if r = "Seven" then 7
  else if r = "Eight" then 8
  else if r = "Nine" then 9
  else if r = "Ten" then 10
  else if r = "Jack" then 10
  else if r = "Queen" then 10
  else if r = "King" then 10
  else if r = "Ace" then 11
  else 0

/-- Modelled from the spec: macroquad's `rand::gen_range(low, high)` (the
crate source is not part of this repository) returns an integer sample in
the half-open interval `[low, high)`; the spec describes the draws as
landing on "indices 1..51 inclusive" of the table.  The raw generator
output `r` is reduced into the interval by remainder. -/
def gen_range (low high r : Nat) : Nat := low + r % (high - low)

/-- Draw of one card index, main.rs:134: `rand::gen_range(1, 52)`. -/
def drawCard (r : Nat) : Nat := gen_range 1 52 r

/-- Decimal digit character for `d < 10`. -/
def digitChar (d : Nat) : Char := Char.ofNat (48 + d)

/-- Big-endian decimal digits of `n`, with explicit fuel so that the
definition reduces in the kernel; `fuel > n` suffices. -/
def natDigitsAux : Nat → Nat → List Char
  | 0, _ => []
  | fuel + 1, n =>
    if n < 10 then [digitChar n]
    else natDigitsAux fuel (n / 10) ++ [digitChar (n % 10)]

/-- Decimal rendering of a natural number, as Rust's `format!` produces for
a non-negative integer. -/
def natRepr (n : Nat) : String := String.mk (natDigitsAux (n + 1) n)

/-- Decimal rendering of an `i32` value, as Rust's `format!`. -/
def intRepr (x : Int) : String :=
  if x < 0 then String.mk ('-' :: natDigitsAux (x.natAbs + 1) x.natAbs)
  else natRepr x.natAbs

/-- Numeric value of an ASCII digit character, `none` on a non-digit. -/
def digitVal (c : Char) : Option Nat :=
  if 48 ≤ c.toNat ∧ c.toNat ≤ 57 then some (c.toNat - 48) else none

/-- Accumulating decimal parse of a digit string; fails on any non-digit. -/
def parseDigits : List Char → Nat → Option Nat
  | [], acc => some acc
  | c :: cs, acc =>
    match digitVal c with
    | some d => parseDigits cs (10 * acc + d)
    | none => none

/-- Parse of a non-empty all-digit string. -/
def parseNat (cs : List Char) : Option Nat :=
  match cs with
  | [] => none
  | _ :: _ => parseDigits cs 0

/-- Modelled from Rust's `str::parse::<i32>` (library code, not part of this
repository): an optional sign followed by one or more ASCII digits, with
the value required to fit in `i32`; anything else is `Err` (here `none`). -/
def parseI32 (s : String) : Option Int :=
  match s.data with
  | [] => none
  | c :: rest =>
    if c = '-' then
      match parseNat rest with
      | some n => if (n : Int) ≤ 2 ^ 31 then some (-(n : Int)) else none
      | none => none
    else if c = '+' then
      match parseNat rest with
      | some n => if (n : Int) < 2 ^ 31 then some (n : Int) else none
      | none => none
    else
      match parseNat (c :: rest) with
      | some n => if (n : Int) < 2 ^ 31 then some (n : Int) else none
      | none => none

/-- Round result, as classified by the settlement if-chain (main.rs:213-229). -/
inductive Outcome
  | dealerWins
  | playerWins
  | noWinner
  | draw
deriving DecidableEq, Repr

/-- Settlement if-chain of main.rs:213-229, applied to the final totals,
with the source's conditions verbatim (`> 21` / `< 22`). -/
def settleOutcome (playertotal dealertotal : Nat) : Outcome :=
  if playertotal > 21 ∧ dealertotal < 22 then .dealerWins
  else if dealertotal > 21 ∧ playertotal < 22 then .playerWins
  else if dealertotal > playertotal ∧ dealertotal < 22 then .dealerWins
  else if dealertotal < playertotal ∧ playertotal < 22 then .playerWins
  else if dealertotal > 21 ∧ playertotal > 21 then .noWinner
  else .draw

/-- Text written to `lbl_winner` for each outcome (main.rs:214/217/220/223/226/228). -/
def outcomeLabel : Outcome → String
  | .dealerWins => "Dealer Wins!"
  | .playerWins => "You Win!"
  | .noWinner => "No Winner!"
  | .draw => "Draw!"

/-- Modelled from the spec's words (§4.1 settlement policy, rules 1-6 in
order, first match winning), for comparison with `settleOutcome`. -/
def specSettle (playertotal dealertotal : Nat) : Outcome :=
  if playertotal > 21 ∧ dealertotal ≤ 21 then .dealerWins
  else if dealertotal > 21 ∧ playertotal ≤ 21 then .playerWins
  else if dealertotal > playertotal ∧ dealertotal ≤ 21 then .dealerWins
  else if dealertotal < playertotal ∧ playertotal ≤ 21 then .playerWins
  else if dealertotal > 21 ∧ playertotal > 21 then .noWinner
  else .draw

/-- Mutable state of the main loop (main.rs:102-130): the texture shown in
each of the ten card slots, the button `enabled` flags, the label texts,
and the three integer counters. -/
structure GameState where
  firstCard : String
  secondCard : String
  thirdCard : String
  fourthCard : String
  fifthCard : String
  dealerCard1 : String
  dealerCard2 : String
  dealerCard3 : String
  dealerCard4 : String
  dealerCard5 : String
  dealEnabled : Bool
  hitEnabled : Bool
  standEnabled : Bool
  replayEnabled : Bool
  lblWinner : String
  lblPlayerscore : String
  lblDealerscore : String
  lblPlayercounter : String
  lblDealercounter : String
  numofhits : Nat
  playertotal : Nat
  dealertotal : Nat
deriving DecidableEq, Repr

/-- State at the first loop iteration: empty card slots (main.rs:102-112),
`btn_hit`/`btn_stand` disabled (main.rs:115,117), `btn_deal` and
`btn_replay` enabled (the `TextButton::new` default, never overridden for
these two before the loop), counter labels `"0"` (main.rs:126-127), and
zeroed integers (main.rs:128-130). -/
def init : GameState where
  firstCard := "assets/Empty.png"
  secondCard := "assets/Empty.png"
  thirdCard := "assets/Empty.png"
  fourthCard := "assets/Empty.png"
  fifthCard := "assets/Empty.png"
  dealerCard1 := "assets/Empty.png"
  dealerCard2 := "assets/Empty.png"
  dealerCard3 := "assets/Empty.png"
  dealerCard4 := "assets/Empty.png"
  dealerCard5 := "assets/Empty.png"
  dealEnabled := true
  hitEnabled := false
  standEnabled := false
  replayEnabled := true
  lblWinner := ""
  lblPlayerscore := ""
  lblDealerscore := ""
  lblPlayercounter := "0"
  lblDealercounter := "0"
  numofhits := 0
  playertotal := 0
  dealertotal := 0

/-- Button press observed in one frame (at most one, since the four button
rectangles of main.rs:111-118 are pairwise disjoint); `tick` is a frame
with no press on any game button. -/
inductive Event
  | deal
  | hit
  | stand
  | replay
  | tick
deriving DecidableEq, Repr

/-- Raw generator outputs consumed by one frame: `rc1`/`rc2` are
`random_card_1/2` (main.rs:134-135), `rd1` is `random_dealer_1`
(main.rs:150), `rc3` is `random_card_3` (main.rs:161), `rd2`-`rd5` are
`random_dealer_2..5` (main.rs:190-193). -/
structure FrameInput where
  event : Event
  rc1 : Nat
  rc2 : Nat
  rd1 : Nat
  rc3 : Nat
  rd2 : Nat
  rd3 : Nat
  rd4 : Nat
  rd5 : Nat
deriving DecidableEq, Repr

/-- Top-of-loop guard, main.rs:136-138. -/
def frameGuard (s : GameState) : GameState :=
  if s.playertotal > 20 then { s with hitEnabled := false } else s

/-- Body of `if btn_deal.click()`, main.rs:142-158.  The `> 20` hit-disable
at main.rs:147-149 is immediately overridden by `btn_hit.enabled = true`
at main.rs:155, which the final record update reproduces. -/
def dealStep (s : GameState) (f : FrameInput) : GameState :=
  let i1 := drawCard f.rc1
  let i2 := drawCard f.rc2
  let pt := scores.getD i1 0 + scores.getD i2 0
  let s := { s with firstCard := cards.getD i1 "",
                    secondCard := cards.getD i2 "",
                    playertotal := pt,
                    lblPlayerscore := natRepr pt }
  let s := if pt > 20 then { s with hitEnabled := false } else s
  let i3 := drawCard f.rd1
  { s with dealerCard1 := cards.getD i3 "",
           dealertotal := scores.getD i3 0,
           lblDealerscore := natRepr (scores.getD i3 0),
           dealEnabled := false,
           hitEnabled := true,
           standEnabled := true,
           replayEnabled := false }

/-- Body of `if btn_hit.click()`, main.rs:159-188: `numofhits` is
incremented first, then the branch on its new value fills the third,
fourth or fifth slot; the first-hit branch disables hitting on `> 22`
(main.rs:166), the later branches on `> 20`. -/
def hitStep (s : GameState) (f : FrameInput) : GameState :=
  let s := { s with numofhits := s.numofhits + 1 }
  let i := drawCard f.rc3
  if s.numofhits = 1 then
    let pt := s.playertotal + scores.getD i 0
    let s := { s with thirdCard := cards.getD i "", playertotal := pt }
    let s := if pt > 22 then { s with hitEnabled := false } else s
    { s with lblPlayerscore := natRepr pt }
  else if s.numofhits = 2 then
    let pt := s.playertotal + scores.getD i 0
    let s := { s with fourthCard := cards.getD i "", playertotal := pt,
                      lblPlayerscore := natRepr pt }
    if pt > 20 then { s with hitEnabled := false } else s
  else if s.numofhits = 3 then
    let s := { s with hitEnabled := false }
    let pt := s.playertotal + scores.getD i 0
    let s := { s with fifthCard := cards.getD i "", playertotal := pt,
                      lblPlayerscore := natRepr pt }
    if pt > 20 then { s with hitEnabled := false } else s
  else s

/-- One counter update `set_text(format!(.., get_text().parse::<i32>().unwrap() + 1))`
(main.rs:215/218/221/224).  A failed parse panics (`unwrap`), and the `+ 1`
on an `i32` panics on overflow under Rust's debug semantics; both panics
are modelled as `none`. -/
def bumpCounter (t : String) : Option String :=
  match parseI32 t with
  | none => none
  | some x => if x + 1 < 2 ^ 31 then some (intRepr (x + 1)) else none

/-- Settlement of main.rs:213-229: writes the winner label and bumps the
winning side's counter. -/
def settleStep (s : GameState) : Option GameState :=
  match settleOutcome s.playertotal s.dealertotal with
  | .dealerWins =>
    match bumpCounter s.lblDealercounter with
    | none => none
    | some t => some { s with lblWinner := outcomeLabel .dealerWins, lblDealercounter := t }
  | .playerWins =>
    match bumpCounter s.lblPlayercounter with
    | none => none
    | some t => some { s with lblWinner := outcomeLabel .playerWins, lblPlayercounter := t }
  | .noWinner => some { s with lblWinner := outcomeLabel .noWinner }
  | .draw => some { s with lblWinner := outcomeLabel .draw }

/-- Dealer auto-play of main.rs:190-211: one unconditional dealer draw
(card 2), then up to three draws (cards 3, 4, 5) each guarded by
`dealertotal < 16` checked immediately before the draw. -/
def dealerDraws (s : GameState) (f : FrameInput) : GameState :=
  let i2 := drawCard f.rd2
  let i3 := drawCard f.rd3
  let i4 := drawCard f.rd4
  let i5 := drawCard f.rd5
  let s := { s with dealerCard2 := cards.getD i2 "",
                    dealertotal := s.dealertotal + scores.getD i2 0,
                    lblDealerscore := natRepr (s.dealertotal + scores.getD i2 0) }
  let s := if s.dealertotal < 16 then
      { s with dealerCard3 := cards.getD i3 "",
               dealertotal := s.dealertotal + scores.getD i3 0,
               lblDealerscore := natRepr (s.dealertotal + scores.getD i3 0) }
    else s
  let s := if s.dealertotal < 16 then
      { s with dealerCard4 := cards.getD i4 "",
               dealertotal := s.dealertotal + scores.getD i4 0,
               lblDealerscore := natRepr (s.dealertotal + scores.getD i4 0) }
    else s
  if s.dealertotal < 16 then
    { s with dealerCard5 := cards.getD i5 "",
             dealertotal := s.dealertotal + scores.getD i5 0,
             lblDealerscore := natRepr (s.dealertotal + scores.getD i5 0) }
  else s

/-- Dealer total immediately after the unconditional second dealer draw
(main.rs:195). -/
def dealerTotal2 (s : GameState) (f : FrameInput) : Nat :=
  s.dealertotal + scores.getD (drawCard f.rd2) 0

/-- Dealer total after the guarded third dealer draw (main.rs:197-201). -/
def dealerTotal3 (s : GameState) (f : FrameInput) : Nat :=
  if dealerTotal2 s f < 16 then dealerTotal2 s f + scores.getD (drawCard f.rd3) 0
  else dealerTotal2 s f

/-- Dealer total after the guarded fourth dealer draw (main.rs:202-206). -/
def dealerTotal4 (s : GameState) (f : FrameInput) : Nat :=
  if dealerTotal3 s f < 16 then dealerTotal3 s f + scores.getD (drawCard f.rd4) 0
  else dealerTotal3 s f

/-- Dealer total after the guarded fifth dealer draw (main.rs:207-211). -/
def dealerTotal5 (s : GameState) (f : FrameInput) : Nat :=
  if dealerTotal4 s f < 16 then dealerTotal4 s f + scores.getD (drawCard f.rd5) 0
  else dealerTotal4 s f

/-- Body of `if btn_stand.click()`, main.rs:189-233: dealer auto-play,
then settlement, then the button flags of main.rs:231-233. -/
def standStep (s : GameState) (f : FrameInput) : Option GameState :=
  match settleStep (dealerDraws s f) with
  | none => none
  | some s => some { s with hitEnabled := false, standEnabled := false, replayEnabled := true }

/-- Body of `if btn_replay.click()`, main.rs:235-251.  Faithful to the
source: `dealer_card4` and `dealer_card5` are NOT cleared, `btn_replay`
stays enabled, and `playertotal`/`dealertotal` are not reset. -/
def replayStep (s : GameState) : GameState :=
  { s with firstCard := "assets/Empty.png",
           secondCard := "assets/Empty.png",
           dealerCard1 := "assets/Empty.png",
           dealerCard2 := "assets/Empty.png",
           dealerCard3 := "assets/Empty.png",
           thirdCard := "assets/Empty.png",
           fourthCard := "assets/Empty.png",
           fifthCard := "assets/Empty.png",
           dealEnabled := true,
           hitEnabled := false,
           standEnabled := false,
           lblPlayerscore := "",
           lblDealerscore := "",
           numofhits := 0,
           lblWinner := "" }

/-- One iteration of the main loop (main.rs:132-270): the hit guard, then
the click dispatch.  A click on a disabled button never fires
(text_button.rs:351), and at most one button fires per frame. -/
def step (s : GameState) (f : FrameInput) : Option GameState :=
  let s := frameGuard s
  if f.event = Event.deal ∧ s.dealEnabled then some (dealStep s f)
  else if f.event = Event.hit ∧ s.hitEnabled then some (hitStep s f)
  else if f.event = Event.stand ∧ s.standEnabled then standStep s f
  else if f.event = Event.replay ∧ s.replayEnabled then some (replayStep s)
  else some s

/-- Iterated frames. -/
def runFrames (s : GameState) (fs : List FrameInput) : Option GameState :=
  fs.foldlM step s

/-- States reachable from program start; a frame whose settlement panics
has no successor. -/
inductive Reachable : GameState → Prop
  | init : Reachable init
  | step {s s' : GameState} {f : FrameInput} :
      Reachable s → step s f = some s' → Reachable s'

/-- Round phase as encoded by the button flags: `deal` enabled means Idle,
otherwise `stand` enabled means PlayerTurn, otherwise Settled. -/
inductive Phase
  | idle
  | playerTurn
  | settled
deriving DecidableEq, Repr

/-- Phase read off a state. -/
def phase (s : GameState) : Phase :=
  if s.dealEnabled then .idle else if s.standEnabled then .playerTurn else .settled

/-- Transitions of the round cycle Idle → PlayerTurn → Settled → Idle,
with self-loops. -/
def phaseStepOK : Phase → Phase → Prop
  | .idle, .idle => True
  | .idle, .playerTurn => True
  | .playerTurn, .playerTurn => True
  | .playerTurn, .settled => True
  | .settled, .settled => True
  | .settled, .idle => True
  | _, _ => False

/-! ### Decimal round-trip lemmas -/

theorem digitChar_toNat {d : Nat} (h : d < 10) : (digitChar d).toNat = 48 + d := by
  interval_cases d <;> decide

theorem digitVal_digitChar {d : Nat} (h : d < 10) : digitVal (digitChar d) = some d := by
  unfold digitVal
  rw [digitChar_toNat h]
  split
  · congr 1
    omega
  · exact absurd (⟨by omega, by omega⟩ : 48 ≤ 48 + d ∧ 48 + d ≤ 57) (by assumption)

theorem parseDigits_append (xs ys : List Char) (acc : Nat) :
    parseDigits (xs ++ ys) acc = (parseDigits xs acc).bind (fun a => parseDigits ys a) := by
  induction xs generalizing acc with
  | nil => rfl
  | cons c cs ih =>
    simp only [List.cons_append, parseDigits]
    cases h : digitVal c with
    | some d => simpa using ih _
    | none => rfl

theorem parseDigits_natDigitsAux :
    ∀ fuel n acc : Nat, n < fuel →
      ∃ k, parseDigits (natDigitsAux fuel n) acc = some (acc * 10 ^ k + n) := by
  intro fuel
  induction fuel with
  | zero => intro n acc h; omega
  | succ fuel ih =>
    intro n acc h
    by_cases h10 : n < 10
    · refine ⟨1, ?_⟩
      simp only [natDigitsAux, if_pos h10, parseDigits, digitVal_digitChar h10]
      congr 1
      omega
    · have hdiv : n / 10 < fuel := by omega
      obtain ⟨k, hk⟩ := ih (n / 10) acc hdiv
      refine ⟨k + 1, ?_⟩
      simp only [natDigitsAux, if_neg h10]
      rw [parseDigits_append, hk]
      simp only [Option.bind_some, parseDigits,
        digitVal_digitChar (Nat.mod_lt n (by omega))]
      show some (10 * (acc * 10 ^ k + n / 10) + n % 10) = some (acc * 10 ^ (k + 1) + n)
      congr 1
      have hdm : 10 * (n / 10) + n % 10 = n := Nat.div_add_mod n 10
      calc 10 * (acc * 10 ^ k + n / 10) + n % 10
          = acc * (10 ^ k * 10) + (10 * (n / 10) + n % 10) := by ring
        _ = acc * 10 ^ (k + 1) + n := by rw [hdm, pow_succ]

theorem natDigitsAux_ne_nil {fuel n : Nat} (h : n < fuel) : natDigitsAux fuel n ≠ [] := by
  cases fuel with
  | zero => omega
  | succ fuel =>
    simp only [natDigitsAux]
    split
    · simp
    · simp

theorem natDigitsAux_mem {fuel n : Nat} {c : Char} (hc : c ∈ natDigitsAux fuel n) :
    48 ≤ c.toNat ∧ c.toNat ≤ 57 := by
  induction fuel generalizing n with
  | zero => simp [natDigitsAux] at hc
  | succ fuel ih =>
    simp only [natDigitsAux] at hc
    split at hc
    · simp only [List.mem_singleton] at hc
      subst hc
      rw [digitChar_toNat (by assumption)]
      omega
    · rw [List.mem_append, List.mem_singleton] at hc
      rcases hc with hc | hc
      · exact ih hc
      · subst hc
        rw [digitChar_toNat (Nat.mod_lt n (by omega))]
        omega

theorem parseNat_natDigitsAux (n : Nat) : parseNat (natDigitsAux (n + 1) n) = some n := by
  have hne := natDigitsAux_ne_nil (Nat.lt_succ_self n)
  obtain ⟨k, hk⟩ := parseDigits_natDigitsAux (n + 1) n 0 (Nat.lt_succ_self n)
  unfold parseNat
  cases hcs : natDigitsAux (n + 1) n with
  | nil => exact absurd hcs hne
  | cons c cs =>
    rw [hcs] at hk
    simpa using hk

theorem parseI32_natRepr {n : Nat} (h : n < 2 ^ 31) : parseI32 (natRepr n) = some (n : Int) := by
  unfold parseI32 natRepr
  cases hcs : natDigitsAux (n + 1) n with
  | nil => exact absurd hcs (natDigitsAux_ne_nil (Nat.lt_succ_self n))
  | cons c cs =>
    have hdig : 48 ≤ c.toNat ∧ c.toNat ≤ 57 :=
      natDigitsAux_mem (hcs ▸ List.mem_cons_self c cs)
    have hminus : c ≠ '-' := by
      intro hch
      rw [hch] at hdig
      revert hdig
      decide
    have hplus : c ≠ '+' := by
      intro hch
      rw [hch] at hdig
      revert hdig
      decide
    have hp : parseNat (c :: cs) = some n := hcs ▸ parseNat_natDigitsAux n
    simp only [hp, if_neg hminus, if_neg hplus]
    rw [if_pos (by exact_mod_cast h)]

theorem intRepr_natCast (m : Nat) : intRepr (m : Int) = natRepr m := by
  unfold intRepr natRepr
  rw [if_neg (by omega), Int.natAbs_ofNat]

theorem bumpCounter_natRepr {k : Nat} (h : k < 2 ^ 31) :
    bumpCounter (natRepr k) =
      if k + 1 < 2 ^ 31 then some (natRepr (k + 1)) else none := by
  unfold bumpCounter
  rw [parseI32_natRepr h]
  dsimp only
  by_cases h2 : k + 1 < 2 ^ 31
  · have hInt : (k : Int) + 1 < 2 ^ 31 := by exact_mod_cast h2
    rw [if_pos hInt, if_pos h2]
    have hcast : ((k : Int) + 1) = ((k + 1 : Nat) : Int) := by push_cast; ring
    rw [hcast, intRepr_natCast]
  · have hInt : ¬((k : Int) + 1 < 2 ^ 31) := by exact_mod_cast h2
    rw [if_neg hInt, if_neg h2]

/-- Nat value displayed by a counter label. -/
def counterNat (t : String) : Nat :=
  match parseI32 t with
  | some x => x.toNat
  | none => 0

theorem counterNat_natRepr (k : Nat) (h : k < 2 ^ 31) : counterNat (natRepr k) = k := by
  unfold counterNat
  rw [parseI32_natRepr h]
  exact Int.toNat_ofNat k

/-! ### Reachability invariant -/

/-- Counter-label well-formedness: the text is the decimal rendering of a
natural number below `2^31`. -/
def CounterOK (t : String) : Prop := ∃ k : Nat, k < 2 ^ 31 ∧ t = natRepr k

/-- Invariant over reachable states: flag implications encoding the round
phase, the hit-count bound, idle-state cleanliness, and well-formed
counter labels. -/
structure Inv (s : GameState) : Prop where
  hit_stand : s.hitEnabled = true → s.standEnabled = true ∧ s.numofhits ≤ 2
  stand_flags : s.standEnabled = true → s.dealEnabled = false ∧ s.replayEnabled = false
  idle_clean : s.dealEnabled = true →
    s.numofhits = 0 ∧ s.lblWinner = "" ∧ s.standEnabled = false ∧ s.hitEnabled = false
  playerCounter : CounterOK s.lblPlayercounter
  dealerCounter : CounterOK s.lblDealercounter

theorem bumpCounter_ok {t t' : String} (h : CounterOK t) (hb : bumpCounter t = some t') :
    CounterOK t' := by
  obtain ⟨k, hk, rfl⟩ := h
  rw [bumpCounter_natRepr hk] at hb
  split at hb
  · exact ⟨k + 1, by assumption, (Option.some.inj hb).symm⟩
  · exact absurd hb (by simp)

theorem bumpCounter_val {t t' : String} (h : CounterOK t) (hb : bumpCounter t = some t') :
    counterNat t' = counterNat t + 1 := by
  obtain ⟨k, hk, rfl⟩ := h
  rw [bumpCounter_natRepr hk] at hb
  split at hb
  · rw [← Option.some.inj hb, counterNat_natRepr k hk,
      counterNat_natRepr (k + 1) (by assumption)]
  · exact absurd hb (by simp)

theorem inv_init : Inv init := by
  refine ⟨?_, ?_, ?_, ⟨0, by norm_num, rfl⟩, ⟨0, by norm_num, rfl⟩⟩ <;> simp [init]

theorem inv_frameGuard {s : GameState} (h : Inv s) : Inv (frameGuard s) := by
  unfold frameGuard
  split
  · exact ⟨by simp, h.stand_flags, fun hd => ⟨(h.idle_clean hd).1, (h.idle_clean hd).2.1,
      (h.idle_clean hd).2.2.1, rfl⟩, h.playerCounter, h.dealerCounter⟩
  · exact h

theorem inv_dealStep {s : GameState} {f : FrameInput} (h : Inv s) (hd : s.dealEnabled = true) :
    Inv (dealStep s f) := by
  obtain ⟨h0, hw, hs0, hh0⟩ := h.idle_clean hd
  unfold dealStep
  dsimp only
  split <;>
    exact ⟨fun _ => ⟨rfl, by simp [h0]⟩, fun _ => ⟨rfl, rfl⟩, by simp,
      h.playerCounter, h.dealerCounter⟩

theorem inv_hitStep {s : GameState} {f : FrameInput} (h : Inv s) (hh : s.hitEnabled = true) :
    Inv (hitStep s f) := by
  obtain ⟨hst, hn2⟩ := h.hit_stand hh
  obtain ⟨hde, hre⟩ := h.stand_flags hst
  unfold hitStep
  dsimp only
  split_ifs <;>
    refine ⟨fun hh' => ⟨?_, ?_⟩, fun _ => ⟨hde, hre⟩, by simp [hde], h.playerCounter,
      h.dealerCounter⟩ <;>
    first
      | exact hst
      | (dsimp only; omega)
      | simp at hh'

theorem settleStep_some {s t : GameState} (h : settleStep s = some t) :
    t.playertotal = s.playertotal ∧ t.dealertotal = s.dealertotal ∧
    t.dealEnabled = s.dealEnabled ∧ t.hitEnabled = s.hitEnabled ∧
    t.standEnabled = s.standEnabled ∧ t.replayEnabled = s.replayEnabled ∧
    t.numofhits = s.numofhits ∧
    t.firstCard = s.firstCard ∧ t.secondCard = s.secondCard ∧ t.thirdCard = s.thirdCard ∧
    t.fourthCard = s.fourthCard ∧ t.fifthCard = s.fifthCard ∧
    t.dealerCard1 = s.dealerCard1 ∧ t.dealerCard2 = s.dealerCard2 ∧
    t.dealerCard3 = s.dealerCard3 ∧ t.dealerCard4 = s.dealerCard4 ∧
    t.dealerCard5 = s.dealerCard5 ∧ t.lblDealerscore = s.lblDealerscore ∧
    t.lblPlayerscore = s.lblPlayerscore ∧
    t.lblWinner = outcomeLabel (settleOutcome s.playertotal s.dealertotal) := by
  unfold settleStep at h
  split at h <;> rename_i heq
  · split at h
    · exact absurd h (by simp)
    · obtain rfl := Option.some.inj h
      simp [heq]
  · split at h
    · exact absurd h (by simp)
    · obtain rfl := Option.some.inj h
      simp [heq]
  · obtain rfl := Option.some.inj h
    simp [heq]
  · obtain rfl := Option.some.inj h
    simp [heq]

theorem settleStep_counters {s t : GameState} (h : settleStep s = some t) :
    (settleOutcome s.playertotal s.dealertotal = Outcome.dealerWins →
      bumpCounter s.lblDealercounter = some t.lblDealercounter ∧
      t.lblPlayercounter = s.lblPlayercounter) ∧
    (settleOutcome s.playertotal s.dealertotal = Outcome.playerWins →
      bumpCounter s.lblPlayercounter = some t.lblPlayercounter ∧
      t.lblDealercounter = s.lblDealercounter) ∧
    ((settleOutcome s.playertotal s.dealertotal = Outcome.noWinner ∨
      settleOutcome s.playertotal s.dealertotal = Outcome.draw) →
      t.lblPlayercounter = s.lblPlayercounter ∧ t.lblDealercounter = s.lblDealercounter) := by
  unfold settleStep at h
  split at h <;> rename_i heq
  · split at h <;> rename_i hbump
    · exact absurd h (by simp)
    · obtain rfl := Option.some.inj h
      refine ⟨fun _ => ⟨?_, rfl⟩, ?_, ?_⟩
      · exact hbump
      · rw [heq]
        simp
      · rw [heq]
        simp
  · split at h <;> rename_i hbump
    · exact absurd h (by simp)
    · obtain rfl := Option.some.inj h
      refine ⟨?_, fun _ => ⟨?_, rfl⟩, ?_⟩
      · rw [heq]
        simp
      · exact hbump
      · rw [heq]
        simp
  · obtain rfl := Option.some.inj h
    refine ⟨?_, ?_, fun _ => ⟨rfl, rfl⟩⟩ <;> (rw [heq]; simp)
  · obtain rfl := Option.some.inj h
    refine ⟨?_, ?_, fun _ => ⟨rfl, rfl⟩⟩ <;> (rw [heq]; simp)

theorem dealerDraws_same (s : GameState) (f : FrameInput) :
    (dealerDraws s f).playertotal = s.playertotal ∧
    (dealerDraws s f).numofhits = s.numofhits ∧
    (dealerDraws s f).dealEnabled = s.dealEnabled ∧
    (dealerDraws s f).hitEnabled = s.hitEnabled ∧
    (dealerDraws s f).standEnabled = s.standEnabled ∧
    (dealerDraws s f).replayEnabled = s.replayEnabled ∧
    (dealerDraws s f).lblWinner = s.lblWinner ∧
    (dealerDraws s f).lblPlayerscore = s.lblPlayerscore ∧
    (dealerDraws s f).lblPlayercounter = s.lblPlayercounter ∧
    (dealerDraws s f).lblDealercounter = s.lblDealercounter ∧
    (dealerDraws s f).firstCard = s.firstCard ∧
    (dealerDraws s f).secondCard = s.secondCard ∧
    (dealerDraws s f).thirdCard = s.thirdCard ∧
    (dealerDraws s f).fourthCard = s.fourthCard ∧
    (dealerDraws s f).fifthCard = s.fifthCard ∧
    (dealerDraws s f).dealerCard1 = s.dealerCard1 := by
  unfold dealerDraws
  dsimp only
  split_ifs <;> simp

theorem inv_standStep {s s' : GameState} {f : FrameInput} (h : Inv s)
    (hst : s.standEnabled = true) (hs : standStep s f = some s') : Inv s' := by
  obtain ⟨hde, hre⟩ := h.stand_flags hst
  unfold standStep at hs
  split at hs <;> rename_i hsettle
  · exact absurd hs (by simp)
  · obtain rfl := Option.some.inj hs
    obtain ⟨hcD, hcP, hcN⟩ := settleStep_counters hsettle
    have hsame := dealerDraws_same s f
    refine ⟨by simp, by simp, ?_, ?_, ?_⟩
    · intro hd'
      have hfields := settleStep_some hsettle
      exact absurd (hd'.symm.trans (hfields.2.2.1.trans (hsame.2.2.1.trans hde)))
        (by simp)
    · rcases houtcome : settleOutcome (dealerDraws s f).playertotal
        (dealerDraws s f).dealertotal with _ | _ | _ | _
      · have := (hcD houtcome).2
        change CounterOK _
        rw [this, hsame.2.2.2.2.2.2.2.2.1]
        exact h.playerCounter
      · have := (hcP houtcome).1
        have hok : CounterOK (dealerDraws s f).lblPlayercounter := by
          rw [hsame.2.2.2.2.2.2.2.2.1]
          exact h.playerCounter
        exact bumpCounter_ok hok this
      · have := (hcN (Or.inl houtcome)).1
        change CounterOK _
        rw [this, hsame.2.2.2.2.2.2.2.2.1]
        exact h.playerCounter
      · have := (hcN (Or.inr houtcome)).1
        change CounterOK _
        rw [this, hsame.2.2.2.2.2.2.2.2.1]
        exact h.playerCounter
    · rcases houtcome : settleOutcome (dealerDraws s f).playertotal
        (dealerDraws s f).dealertotal with _ | _ | _ | _
      · have := (hcD houtcome).1
        have hok : CounterOK (dealerDraws s f).lblDealercounter := by
          rw [hsame.2.2.2.2.2.2.2.2.2.1]
          exact h.dealerCounter
        exact bumpCounter_ok hok this
      · have := (hcP houtcome).2
        change CounterOK _
        rw [this, hsame.2.2.2.2.2.2.2.2.2.1]
        exact h.dealerCounter
      · have := (hcN (Or.inl houtcome)).2
        change CounterOK _
        rw [this, hsame.2.2.2.2.2.2.2.2.2.1]
        exact h.dealerCounter
      · have := (hcN (Or.inr houtcome)).2
        change CounterOK _
        rw [this, hsame.2.2.2.2.2.2.2.2.2.1]
        exact h.dealerCounter

theorem inv_replayStep {s : GameState} (h : Inv s) : Inv (replayStep s) :=
  ⟨by simp [replayStep], by simp [replayStep], fun _ => ⟨rfl, rfl, rfl, rfl⟩,
    h.playerCounter, h.dealerCounter⟩

theorem step_cases {s s' : GameState} {f : FrameInput} (h : step s f = some s') :
    (f.event = Event.deal ∧ (frameGuard s).dealEnabled = true ∧ s' = dealStep (frameGuard s) f)
    ∨ (f.event = Event.hit ∧ (frameGuard s).hitEnabled = true ∧ s' = hitStep (frameGuard s) f)
    ∨ (f.event = Event.stand ∧ (frameGuard s).standEnabled = true ∧
        standStep (frameGuard s) f = some s')
    ∨ (f.event = Event.replay ∧ (frameGuard s).replayEnabled = true ∧
        s' = replayStep (frameGuard s))
    ∨ s' = frameGuard s := by
  unfold step at h
  dsimp only at h
  split_ifs at h with h1 h2 h3 h4
  · exact Or.inl ⟨h1.1, h1.2, (Option.some.inj h).symm⟩
  · exact Or.inr (Or.inl ⟨h2.1, h2.2, (Option.some.inj h).symm⟩)
  · exact Or.inr (Or.inr (Or.inl ⟨h3.1, h3.2, h⟩))
  · exact Or.inr (Or.inr (Or.inr (Or.inl ⟨h4.1, h4.2, (Option.some.inj h).symm⟩)))
  · exact Or.inr (Or.inr (Or.inr (Or.inr (Option.some.inj h).symm)))

theorem inv_step {s s' : GameState} {f : FrameInput} (h : Inv s) (hs : step s f = some s') :
    Inv s' := by
  have hg := inv_frameGuard h
  rcases step_cases hs with ⟨_, hd, rfl⟩ | ⟨_, hh, rfl⟩ | ⟨_, hstand, hss⟩ | ⟨_, _, rfl⟩ | rfl
  · exact inv_dealStep hg hd
  · exact inv_hitStep hg hh
  · exact inv_standStep hg hstand hss
  · exact inv_replayStep hg
  · exact hg

theorem reachable_inv {s : GameState} (h : Reachable s) : Inv s := by
  induction h with
  | init => exact inv_init
  | step _ hs ih => exact inv_step ih hs

@[simp] theorem frameGuard_playertotal (s : GameState) :
    (frameGuard s).playertotal = s.playertotal := by
  unfold frameGuard
  split <;> rfl

@[simp] theorem frameGuard_dealertotal (s : GameState) :
    (frameGuard s).dealertotal = s.dealertotal := by
  unfold frameGuard
  split <;> rfl

@[simp] theorem frameGuard_numofhits (s : GameState) :
    (frameGuard s).numofhits = s.numofhits := by
  unfold frameGuard
  split <;> rfl

@[simp] theorem frameGuard_dealEnabled (s : GameState) :
    (frameGuard s).dealEnabled = s.dealEnabled := by
  unfold frameGuard
  split <;> rfl

@[simp] theorem frameGuard_standEnabled (s : GameState) :
    (frameGuard s).standEnabled = s.standEnabled := by
  unfold frameGuard
  split <;> rfl

@[simp] theorem frameGuard_replayEnabled (s : GameState) :
    (frameGuard s).replayEnabled = s.replayEnabled := by
  unfold frameGuard
  split <;> rfl

@[simp] theorem frameGuard_lblWinner (s : GameState) :
    (frameGuard s).lblWinner = s.lblWinner := by
  unfold frameGuard
  split <;> rfl

@[simp] theorem frameGuard_lblPlayerscore (s : GameState) :
    (frameGuard s).lblPlayerscore = s.lblPlayerscore := by
  unfold frameGuard
  split <;> rfl

@[simp] theorem frameGuard_lblDealerscore (s : GameState) :
    (frameGuard s).lblDealerscore = s.lblDealerscore := by
  unfold frameGuard
  split <;> rfl

@[simp] theorem frameGuard_lblPlayercounter (s : GameState) :
    (frameGuard s).lblPlayercounter = s.lblPlayercounter := by
  unfold frameGuard
  split <;> rfl

@[simp] theorem frameGuard_lblDealercounter (s : GameState) :
    (frameGuard s).lblDealercounter = s.lblDealercounter := by
  unfold frameGuard
  split <;> rfl

@[simp] theorem frameGuard_firstCard (s : GameState) :
    (frameGuard s).firstCard = s.firstCard := by
  unfold frameGuard
  split <;> rfl

@[simp] theorem frameGuard_secondCard (s : GameState) :
    (frameGuard s).secondCard = s.secondCard := by
  unfold frameGuard
  split <;> rfl

@[simp] theorem frameGuard_thirdCard (s : GameState) :
    (frameGuard s).thirdCard = s.thirdCard := by
  unfold frameGuard
  split <;> rfl

@[simp] theorem frameGuard_fourthCard (s : GameState) :
    (frameGuard s).fourthCard = s.fourthCard := by
  unfold frameGuard
  split <;> rfl

@[simp] theorem frameGuard_fifthCard (s : GameState) :
    (frameGuard s).fifthCard = s.fifthCard := by
  unfold frameGuard
  split <;> rfl

@[simp] theorem frameGuard_dealerCard1 (s : GameState) :
    (frameGuard s).dealerCard1 = s.dealerCard1 := by
  unfold frameGuard
  split <;> rfl

@[simp] theorem frameGuard_dealerCard2 (s : GameState) :
    (frameGuard s).dealerCard2 = s.dealerCard2 := by
  unfold frameGuard
  split <;> rfl

@[simp] theorem frameGuard_dealerCard3 (s : GameState) :
    (frameGuard s).dealerCard3 = s.dealerCard3 := by
  unfold frameGuard
  split <;> rfl

@[simp] theorem frameGuard_dealerCard4 (s : GameState) :
    (frameGuard s).dealerCard4 = s.dealerCard4 := by
  unfold frameGuard
  split <;> rfl

@[simp] theorem frameGuard_dealerCard5 (s : GameState) :
    (frameGuard s).dealerCard5 = s.dealerCard5 := by
  unfold frameGuard
  split <;> rfl

theorem frameGuard_hitEnabled_true {s : GameState}
    (h : (frameGuard s).hitEnabled = true) : s.hitEnabled = true := by
  unfold frameGuard at h
  split at h
  · simp at h
  · exact h

theorem dealStep_flags (s : GameState) (f : FrameInput) :
    (dealStep s f).dealEnabled = false ∧ (dealStep s f).hitEnabled = true ∧
    (dealStep s f).standEnabled = true ∧ (dealStep s f).replayEnabled = false := by
  unfold dealStep
  dsimp only
  exact ⟨rfl, rfl, rfl, rfl⟩

theorem dealStep_counters_same (s : GameState) (f : FrameInput) :
    (dealStep s f).lblPlayercounter = s.lblPlayercounter ∧
    (dealStep s f).lblDealercounter = s.lblDealercounter := by
  unfold dealStep
  dsimp only
  split_ifs <;> exact ⟨rfl, rfl⟩

theorem hitStep_flags (s : GameState) (f : FrameInput) :
    (hitStep s f).dealEnabled = s.dealEnabled ∧
    (hitStep s f).standEnabled = s.standEnabled ∧
    (hitStep s f).replayEnabled = s.replayEnabled := by
  unfold hitStep
  dsimp only
  split_ifs <;> exact ⟨rfl, rfl, rfl⟩

theorem hitStep_counters_same (s : GameState) (f : FrameInput) :
    (hitStep s f).lblPlayercounter = s.lblPlayercounter ∧
    (hitStep s f).lblDealercounter = s.lblDealercounter := by
  unfold hitStep
  dsimp only
  split_ifs <;> exact ⟨rfl, rfl⟩

theorem step_stand_eq {s : GameState} {f : FrameInput} (hev : f.event = Event.stand)
    (hst : s.standEnabled = true) : step s f = standStep (frameGuard s) f := by
  simp [step, hev, hst]

theorem step_deal_eq {s : GameState} {f : FrameInput} (hev : f.event = Event.deal)
    (hd : s.dealEnabled = true) : step s f = some (dealStep (frameGuard s) f) := by
  simp [step, hev, hd]

/-! ### Claim theorems -/

/-- C9: for every index `i` in 0..51, `scores[i]` is the correct point value
for the card named by `cards[i]`: ranks 2-10 map to face value, Jack, Queen
and King to 10, and Ace to 11, identically across all four suits. -/
theorem scores_match_card_ranks :
    ∀ i : Nat, i < 52 → scores.getD i 0 = rankValue (rankWord (cards.getD i "")) := by
  decide

/-- C9 witness: the theorem instantiated at index 0 (the Two of clubs). -/
theorem scores_match_card_ranks_witness :
    scores.getD 0 0 = rankValue (rankWord (cards.getD 0 "")) :=
  scores_match_card_ranks 0 (by decide)

/-- C1: the settlement if-chain equals the spec's six ordered rules
(first match winning), the six fixed total pairs produce the stated
outcomes, and when stand() settles a round the winner label displays
exactly the outcome of that chain evaluated on the final player and dealer
totals. -/
theorem settlement_policy :
    (∀ pt dt : Nat, settleOutcome pt dt = specSettle pt dt) ∧
    settleOutcome 22 20 = Outcome.dealerWins ∧
    settleOutcome 18 22 = Outcome.playerWins ∧
    settleOutcome 19 20 = Outcome.dealerWins ∧
    settleOutcome 20 18 = Outcome.playerWins ∧
    settleOutcome 22 23 = Outcome.noWinner ∧
    settleOutcome 20 20 = Outcome.draw ∧
    (∀ (s s' : GameState) (f : FrameInput), f.event = Event.stand →
      s.standEnabled = true → step s f = some s' →
      s'.lblWinner = outcomeLabel (settleOutcome s'.playertotal s'.dealertotal)) := by
  refine ⟨?_, by decide, by decide, by decide, by decide, by decide, by decide, ?_⟩
  · intro pt dt
    unfold settleOutcome specSettle
    split_ifs <;> first | rfl | omega
  · intro s s' f hev hst hs
    rw [step_stand_eq hev hst] at hs
    unfold standStep at hs
    split at hs <;> rename_i t hsettle
    · exact absurd hs (by simp)
    · obtain rfl := Option.some.inj hs
      obtain ⟨hpt, hdt, -, -, -, -, -, -, -, -, -, -, -, -, -, -, -, -, -, hwin⟩ :=
        settleStep_some hsettle
      show t.lblWinner = outcomeLabel (settleOutcome t.playertotal t.dealertotal)
      rw [hwin, hpt, hdt]

/-- C1 witness: the theorem's stand clause instantiated on a concrete
round (deal a 4, stand; the dealer finishes with 16 and wins). -/
theorem settlement_policy_witness :
    ((step (dealStep (frameGuard init) ⟨Event.deal, 0, 0, 0, 0, 0, 0, 0, 0⟩)
        ⟨Event.stand, 0, 0, 0, 0, 0, 0, 0, 0⟩).getD init).lblWinner =
      outcomeLabel (settleOutcome
        ((step (dealStep (frameGuard init) ⟨Event.deal, 0, 0, 0, 0, 0, 0, 0, 0⟩)
            ⟨Event.stand, 0, 0, 0, 0, 0, 0, 0, 0⟩).getD init).playertotal
        ((step (dealStep (frameGuard init) ⟨Event.deal, 0, 0, 0, 0, 0, 0, 0, 0⟩)
            ⟨Event.stand, 0, 0, 0, 0, 0, 0, 0, 0⟩).getD init).dealertotal) :=
  settlement_policy.2.2.2.2.2.2.2
    (dealStep (frameGuard init) ⟨Event.deal, 0, 0, 0, 0, 0, 0, 0, 0⟩) _
    ⟨Event.stand, 0, 0, 0, 0, 0, 0, 0, 0⟩ rfl (by decide) (by decide)

/-- C4 counterexample: the card at table index 0 (the Two of clubs) is
never a possible outcome of a draw, refuting "every one of the 52 real
cards, including the entry at table index 0, is a possible outcome of
every draw". -/
theorem drawCard_never_zero : 0 ∉ Set.range drawCard := by
  rintro ⟨r, hr⟩
  unfold drawCard gen_range at hr
  omega

/-- C4 amended: every draw is an independent uniform sample over the 51
populated table indices 1..51 (each attained, equally often over one
period of the reduced generator output), with index 0 never drawn. -/
theorem drawCard_uniform_over_51 :
    (∀ r : Nat, 1 ≤ drawCard r ∧ drawCard r ≤ 51) ∧
    (∀ i : Nat, 1 ≤ i → i ≤ 51 → ∃ r, drawCard r = i) ∧
    (∀ i : Nat, 1 ≤ i → i ≤ 51 →
      ((Finset.range 51).filter (fun r => drawCard r = i)).card = 1) ∧
    (∀ r : Nat, drawCard r = drawCard (r % 51)) := by
  refine ⟨?_, ?_, ?_, ?_⟩
  · intro r
    unfold drawCard gen_range
    omega
  · intro i h1 h51
    refine ⟨i - 1, ?_⟩
    unfold drawCard gen_range
    omega
  · intro i h1 h51
    rw [Finset.card_eq_one]
    refine ⟨i - 1, ?_⟩
    ext r
    simp only [Finset.mem_filter, Finset.mem_range, Finset.mem_singleton]
    unfold drawCard gen_range
    omega
  · intro r
    unfold drawCard gen_range
    omega

/-- C4 witness: the amended theorem instantiated at raw draw 7 and at
outcome index 51. -/
theorem drawCard_uniform_over_51_witness :
    (1 ≤ drawCard 7 ∧ drawCard 7 ≤ 51) ∧
    ((Finset.range 51).filter (fun r => drawCard r = 51)).card = 1 :=
  ⟨drawCard_uniform_over_51.1 7,
   drawCard_uniform_over_51.2.2.1 51 (by decide) (by decide)⟩

theorem dealerDraws_spec (s : GameState) (f : FrameInput) :
    (dealerDraws s f).dealerCard2 = cards.getD (drawCard f.rd2) "" ∧
    (dealerDraws s f).dealerCard3 =
      (if dealerTotal2 s f < 16 then cards.getD (drawCard f.rd3) "" else s.dealerCard3) ∧
    (dealerDraws s f).dealerCard4 =
      (if dealerTotal3 s f < 16 then cards.getD (drawCard f.rd4) "" else s.dealerCard4) ∧
    (dealerDraws s f).dealerCard5 =
      (if dealerTotal4 s f < 16 then cards.getD (drawCard f.rd5) "" else s.dealerCard5) ∧
    (dealerDraws s f).dealertotal = dealerTotal5 s f := by
  unfold dealerDraws dealerTotal5 dealerTotal4 dealerTotal3 dealerTotal2
  dsimp only
  split_ifs <;> simp_all

/-- C5: when stand() fires, the second dealer card is drawn
unconditionally; the third, fourth and fifth dealer cards are drawn
exactly when the dealer total immediately before that draw is below 16;
the first dealer slot is untouched (so the dealer never exceeds 5 cards);
and once a pre-draw total reaches 16 the remaining slots and the total
stay unchanged. -/
theorem dealer_drawing_policy (s s' : GameState) (f : FrameInput)
    (hev : f.event = Event.stand) (hst : s.standEnabled = true)
    (hs : step s f = some s') :
    s'.dealerCard2 = cards.getD (drawCard f.rd2) "" ∧
    s'.dealerCard3 =
      (if dealerTotal2 s f < 16 then cards.getD (drawCard f.rd3) "" else s.dealerCard3) ∧
    s'.dealerCard4 =
      (if dealerTotal3 s f < 16 then cards.getD (drawCard f.rd4) "" else s.dealerCard4) ∧
    s'.dealerCard5 =
      (if dealerTotal4 s f < 16 then cards.getD (drawCard f.rd5) "" else s.dealerCard5) ∧
    s'.dealertotal = dealerTotal5 s f ∧
    s'.dealerCard1 = s.dealerCard1 ∧
    (16 ≤ dealerTotal2 s f →
      s'.dealertotal = dealerTotal2 s f ∧ s'.dealerCard3 = s.dealerCard3 ∧
      s'.dealerCard4 = s.dealerCard4 ∧ s'.dealerCard5 = s.dealerCard5) := by
  rw [step_stand_eq hev hst] at hs
  unfold standStep at hs
  split at hs <;> rename_i t hsettle
  · exact absurd hs (by simp)
  · obtain rfl := Option.some.inj hs
    obtain ⟨-, hdt, -, -, -, -, -, -, -, -, -, -, hc1, hc2, hc3, hc4, hc5, -, -, -⟩ :=
      settleStep_some hsettle
    have hd := dealerDraws_spec (frameGuard s) f
    have htot2 : dealerTotal2 (frameGuard s) f = dealerTotal2 s f := by
      unfold dealerTotal2
      rw [frameGuard_dealertotal]
    have htot3 : dealerTotal3 (frameGuard s) f = dealerTotal3 s f := by
      unfold dealerTotal3
      rw [htot2]
    have htot4 : dealerTotal4 (frameGuard s) f = dealerTotal4 s f := by
      unfold dealerTotal4
      rw [htot3]
    have htot5 : dealerTotal5 (frameGuard s) f = dealerTotal5 s f := by
      unfold dealerTotal5
      rw [htot4]
    rw [htot2, htot3, htot4, htot5, frameGuard_dealerCard3, frameGuard_dealerCard4,
      frameGuard_dealerCard5] at hd
    refine ⟨?_, ?_, ?_, ?_, ?_, ?_, ?_⟩
    · exact hc2.trans hd.1
    · exact hc3.trans hd.2.1
    · exact hc4.trans hd.2.2.1
    · exact hc5.trans hd.2.2.2.1
    · exact hdt.trans hd.2.2.2.2
    · exact hc1.trans
        (((dealerDraws_same (frameGuard s) f).2.2.2.2.2.2.2.2.2.2.2.2.2.2.2).trans
          (frameGuard_dealerCard1 s))
    · intro h16
      have hstop3 : dealerTotal3 s f = dealerTotal2 s f := by
        unfold dealerTotal3
        rw [if_neg (by omega)]
      have hstop4 : dealerTotal4 s f = dealerTotal2 s f := by
        unfold dealerTotal4
        rw [hstop3, if_neg (by omega)]
      have hstop5 : dealerTotal5 s f = dealerTotal2 s f := by
        unfold dealerTotal5
        rw [hstop4, if_neg (by omega)]
      refine ⟨?_, ?_, ?_, ?_⟩
      · rw [hdt.trans hd.2.2.2.2, hstop5]
      · rw [hc3.trans hd.2.1, if_neg (by omega)]
      · rw [hc4.trans hd.2.2.1, hstop3, if_neg (by omega)]
      · rw [hc5.trans hd.2.2.2.1, hstop4, if_neg (by omega)]

/-- Frame that deals: both player draws are raw value 36 (card index 37, an
Ace worth 11), dealer draw raw value 0 (card index 1, a Two). -/
def dealAces : FrameInput := ⟨Event.deal, 36, 36, 0, 0, 0, 0, 0, 0⟩

/-- Frame that deals all-Twos (raw value 0 everywhere). -/
def dealTwos : FrameInput := ⟨Event.deal, 0, 0, 0, 0, 0, 0, 0, 0⟩

/-- Frame that hits with raw value 0. -/
def hitFrame : FrameInput := ⟨Event.hit, 0, 0, 0, 0, 0, 0, 0, 0⟩

/-- Frame that stands, all dealer draws raw value 0 (Twos). -/
def standFrame : FrameInput := ⟨Event.stand, 0, 0, 0, 0, 0, 0, 0, 0⟩

/-- Frame that replays. -/
def replayFrame : FrameInput := ⟨Event.replay, 0, 0, 0, 0, 0, 0, 0, 0⟩

/-- State after dealing two Aces to the player (total 22) from the initial
state. -/
def sAces : GameState := dealStep (frameGuard init) dealAces

/-- State after dealing all Twos (player total 4, dealer 2) from the
initial state. -/
def sTwos : GameState := dealStep (frameGuard init) dealTwos

theorem sAces_reachable : Reachable sAces :=
  Reachable.step Reachable.init (step_deal_eq rfl rfl)

theorem sTwos_reachable : Reachable sTwos :=
  Reachable.step Reachable.init (step_deal_eq rfl rfl)

/-- C5 witness: the theorem's total clause instantiated on a concrete
round (deal Twos, then stand with all dealer draws Twos). -/
theorem dealer_drawing_policy_witness :
    ((step sTwos standFrame).getD init).dealertotal = dealerTotal5 sTwos standFrame :=
  (dealer_drawing_policy sTwos ((step sTwos standFrame).getD init) standFrame rfl
    (by decide) (by decide)).2.2.2.2.1

/-- C2: in any reachable state where the 3rd hit has already been taken or
the player total exceeds 20, a hit attempt at the next frame boundary is
blocked: the frame leaves the player total, the hit counter and every card
slot unchanged (at most the hit button's enabled flag changes, via the
top-of-loop guard). -/
theorem hit_attempts_blocked (s : GameState) (f : FrameInput)
    (hr : Reachable s) (hev : f.event = Event.hit)
    (hblock : 3 ≤ s.numofhits ∨ 20 < s.playertotal) :
    step s f = some (frameGuard s) ∧
    (frameGuard s).playertotal = s.playertotal ∧
    (frameGuard s).numofhits = s.numofhits ∧
    (frameGuard s).firstCard = s.firstCard ∧
    (frameGuard s).secondCard = s.secondCard ∧
    (frameGuard s).thirdCard = s.thirdCard ∧
    (frameGuard s).fourthCard = s.fourthCard ∧
    (frameGuard s).fifthCard = s.fifthCard ∧
    (frameGuard s).dealerCard1 = s.dealerCard1 ∧
    (frameGuard s).dealerCard2 = s.dealerCard2 ∧
    (frameGuard s).dealerCard3 = s.dealerCard3 ∧
    (frameGuard s).dealerCard4 = s.dealerCard4 ∧
    (frameGuard s).dealerCard5 = s.dealerCard5 := by
  have hinv := reachable_inv hr
  have hfire : (frameGuard s).hitEnabled = false := by
    rcases hblock with h3 | h20
    · unfold frameGuard
      split
      · rfl
      · cases hhe : s.hitEnabled with
        | false => rfl
        | true => exact absurd (hinv.hit_stand hhe).2 (by omega)
    · unfold frameGuard
      rw [if_pos h20]
  refine ⟨?_, frameGuard_playertotal s, frameGuard_numofhits s, frameGuard_firstCard s,
    frameGuard_secondCard s, frameGuard_thirdCard s, frameGuard_fourthCard s,
    frameGuard_fifthCard s, frameGuard_dealerCard1 s, frameGuard_dealerCard2 s,
    frameGuard_dealerCard3 s, frameGuard_dealerCard4 s, frameGuard_dealerCard5 s⟩
  simp [step, hev, hfire]

/-- C2 witness: the theorem instantiated after a deal of two Aces (player
total 22 > 20); the hit attempt is a no-op frame. -/
theorem hit_attempts_blocked_witness :
    step sAces hitFrame = some (frameGuard sAces) ∧ 20 < sAces.playertotal :=
  ⟨(hit_attempts_blocked sAces hitFrame sAces_reachable rfl (Or.inr (by decide))).1,
   by decide⟩

/-- C6: immediately after deal() fires from any reachable Idle state, the
player total is the sum of the two drawn player cards' scores, the dealer
total is the single drawn dealer card's score, the hit counter is 0, and
the previous round's winner label is cleared. -/
theorem deal_postcondition (s s' : GameState) (f : FrameInput)
    (hr : Reachable s) (hd : s.dealEnabled = true) (hev : f.event = Event.deal)
    (hs : step s f = some s') :
    s'.playertotal = scores.getD (drawCard f.rc1) 0 + scores.getD (drawCard f.rc2) 0 ∧
    s'.dealertotal = scores.getD (drawCard f.rd1) 0 ∧
    s'.numofhits = 0 ∧
    s'.lblWinner = "" := by
  have hinv := reachable_inv hr
  obtain ⟨h0, hw, -, -⟩ := hinv.idle_clean hd
  rw [step_deal_eq hev hd] at hs
  obtain rfl := Option.some.inj hs
  unfold dealStep
  dsimp only
  split_ifs <;>
    exact ⟨rfl, rfl, by simp [h0], by simp [hw]⟩

/-- C6 witness: the theorem instantiated at the initial deal of two Aces. -/
theorem deal_postcondition_witness :
    sAces.playertotal =
      scores.getD (drawCard dealAces.rc1) 0 + scores.getD (drawCard dealAces.rc2) 0 ∧
    sAces.dealertotal = scores.getD (drawCard dealAces.rd1) 0 ∧
    sAces.numofhits = 0 ∧ sAces.lblWinner = "" :=
  deal_postcondition init sAces dealAces Reachable.init rfl rfl (step_deal_eq rfl rfl)

/-- C3: evaluating a full round (deal all Twos, stand with the dealer
drawing Twos up to five cards, then replay) shows that replay() clears the
five player slots and dealer slots 1-3, resets the hit counter, clears the
winner label, re-enables dealing and leaves the tallies unchanged — but
leaves the fourth and fifth dealer slots still holding their cards, since
main.rs:235-251 never clears `dealer_card4`/`dealer_card5`. -/
theorem replay_leaves_dealer_slots_4_and_5 :
    (runFrames init [dealTwos, standFrame, replayFrame]).map
        (fun s => (s.firstCard, s.secondCard, s.thirdCard, s.fourthCard, s.fifthCard,
          s.dealerCard1, s.dealerCard2, s.dealerCard3, s.dealerCard4, s.dealerCard5,
          s.numofhits, s.lblWinner, s.dealEnabled, s.lblPlayercounter, s.lblDealercounter)) =
      some ("assets/Empty.png", "assets/Empty.png", "assets/Empty.png", "assets/Empty.png",
        "assets/Empty.png", "assets/Empty.png", "assets/Empty.png", "assets/Empty.png",
        "assets/Two-of-hearts.png", "assets/Two-of-hearts.png",
        0, "", true, "0", "1") := by
  rfl

/-- C10: in every reachable state both win-counter labels hold a string
that parses as an i32, so the settlement's `parse::<i32>().unwrap()` never
panics. -/
theorem counter_labels_always_parse (s : GameState) (hr : Reachable s) :
    (parseI32 s.lblPlayercounter).isSome = true ∧
    (parseI32 s.lblDealercounter).isSome = true := by
  have hinv := reachable_inv hr
  obtain ⟨kP, hkP, heP⟩ := hinv.playerCounter
  obtain ⟨kD, hkD, heD⟩ := hinv.dealerCounter
  rw [heP, heD, parseI32_natRepr hkP, parseI32_natRepr hkD]
  exact ⟨rfl, rfl⟩

/-- C10 witness: the theorem instantiated at the initial state. -/
theorem counter_labels_always_parse_witness :
    (parseI32 init.lblPlayercounter).isSome = true ∧
    (parseI32 init.lblDealercounter).isSome = true :=
  counter_labels_always_parse init Reachable.init

/-- C7: across every reachable frame the two win tallies never decrease;
they are unchanged unless stand() settles the round, and then the winning
side's tally grows by exactly 1 while the other is unchanged (draw and
no-winner outcomes change neither). -/
theorem tally_updates (s s' : GameState) (f : FrameInput)
    (hr : Reachable s) (hs : step s f = some s') :
    counterNat s.lblPlayercounter ≤ counterNat s'.lblPlayercounter ∧
    counterNat s.lblDealercounter ≤ counterNat s'.lblDealercounter ∧
    (¬(f.event = Event.stand ∧ s.standEnabled = true) →
      counterNat s'.lblPlayercounter = counterNat s.lblPlayercounter ∧
      counterNat s'.lblDealercounter = counterNat s.lblDealercounter) ∧
    (f.event = Event.stand → s.standEnabled = true →
      (settleOutcome s'.playertotal s'.dealertotal = Outcome.playerWins →
        counterNat s'.lblPlayercounter = counterNat s.lblPlayercounter + 1 ∧
        counterNat s'.lblDealercounter = counterNat s.lblDealercounter) ∧
      (settleOutcome s'.playertotal s'.dealertotal = Outcome.dealerWins →
        counterNat s'.lblDealercounter = counterNat s.lblDealercounter + 1 ∧
        counterNat s'.lblPlayercounter = counterNat s.lblPlayercounter) ∧
      ((settleOutcome s'.playertotal s'.dealertotal = Outcome.noWinner ∨
        settleOutcome s'.playertotal s'.dealertotal = Outcome.draw) →
        counterNat s'.lblPlayercounter = counterNat s.lblPlayercounter ∧
        counterNat s'.lblDealercounter = counterNat s.lblDealercounter)) := by
  have hinv := reachable_inv hr
  by_cases hstand : f.event = Event.stand ∧ s.standEnabled = true
  · obtain ⟨hev, hst⟩ := hstand
    rw [step_stand_eq hev hst] at hs
    unfold standStep at hs
    split at hs <;> rename_i t hsettle
    · exact absurd hs (by simp)
    · obtain rfl := Option.some.inj hs
      obtain ⟨hcD, hcP, hcN⟩ := settleStep_counters hsettle
      obtain ⟨hpt, hdt, -, -, -, -, -, -, -, -, -, -, -, -, -, -, -, -, -, -⟩ :=
        settleStep_some hsettle
      have hsame := dealerDraws_same (frameGuard s) f
      have hsP : (dealerDraws (frameGuard s) f).lblPlayercounter = s.lblPlayercounter :=
        (hsame.2.2.2.2.2.2.2.2.1).trans (frameGuard_lblPlayercounter s)
      have hsD : (dealerDraws (frameGuard s) f).lblDealercounter = s.lblDealercounter :=
        (hsame.2.2.2.2.2.2.2.2.2.1).trans (frameGuard_lblDealercounter s)
      have hokP : CounterOK (dealerDraws (frameGuard s) f).lblPlayercounter := by
        rw [hsP]
        exact hinv.playerCounter
      have hokD : CounterOK (dealerDraws (frameGuard s) f).lblDealercounter := by
        rw [hsD]
        exact hinv.dealerCounter
      dsimp only
      rw [hpt, hdt]
      rcases houtcome : settleOutcome (dealerDraws (frameGuard s) f).playertotal
          (dealerDraws (frameGuard s) f).dealertotal with _ | _ | _ | _
      · obtain ⟨hbD, htP⟩ := hcD houtcome
        have h1 : counterNat t.lblDealercounter = counterNat s.lblDealercounter + 1 := by
          rw [← hsD]
          exact bumpCounter_val hokD hbD
        have h2 : counterNat t.lblPlayercounter = counterNat s.lblPlayercounter := by
          rw [htP, hsP]
        exact ⟨by omega, by omega, fun hno => absurd ⟨hev, hst⟩ hno,
          fun _ _ => ⟨fun hh => absurd hh (by decide), fun _ => ⟨h1, h2⟩,
            fun hh => absurd hh (by decide)⟩⟩
      · obtain ⟨hbP, htD⟩ := hcP houtcome
        have h1 : counterNat t.lblPlayercounter = counterNat s.lblPlayercounter + 1 := by
          rw [← hsP]
          exact bumpCounter_val hokP hbP
        have h2 : counterNat t.lblDealercounter = counterNat s.lblDealercounter := by
          rw [htD, hsD]
        exact ⟨by omega, by omega, fun hno => absurd ⟨hev, hst⟩ hno,
          fun _ _ => ⟨fun _ => ⟨h1, h2⟩, fun hh => absurd hh (by decide),
            fun hh => absurd hh (by decide)⟩⟩
      · obtain ⟨htP, htD⟩ := hcN (Or.inl houtcome)
        have h1 : counterNat t.lblPlayercounter = counterNat s.lblPlayercounter := by
          rw [htP, hsP]
        have h2 : counterNat t.lblDealercounter = counterNat s.lblDealercounter := by
          rw [htD, hsD]
        exact ⟨by omega, by omega, fun hno => absurd ⟨hev, hst⟩ hno,
          fun _ _ => ⟨fun hh => absurd hh (by decide), fun hh => absurd hh (by decide),
            fun _ => ⟨h1, h2⟩⟩⟩
      · obtain ⟨htP, htD⟩ := hcN (Or.inr houtcome)
        have h1 : counterNat t.lblPlayercounter = counterNat s.lblPlayercounter := by
          rw [htP, hsP]
        have h2 : counterNat t.lblDealercounter = counterNat s.lblDealercounter := by
          rw [htD, hsD]
        exact ⟨by omega, by omega, fun hno => absurd ⟨hev, hst⟩ hno,
          fun _ _ => ⟨fun hh => absurd hh (by decide), fun hh => absurd hh (by decide),
            fun _ => ⟨h1, h2⟩⟩⟩
  · have hunch : s'.lblPlayercounter = s.lblPlayercounter ∧
        s'.lblDealercounter = s.lblDealercounter := by
      rcases step_cases hs with ⟨hev, hd, rfl⟩ | ⟨hev, hh, rfl⟩ | ⟨hev, hsg, hss⟩ |
        ⟨hev, hrp, rfl⟩ | rfl
      · exact ⟨(dealStep_counters_same _ _).1.trans (frameGuard_lblPlayercounter s),
          (dealStep_counters_same _ _).2.trans (frameGuard_lblDealercounter s)⟩
      · exact ⟨(hitStep_counters_same _ _).1.trans (frameGuard_lblPlayercounter s),
          (hitStep_counters_same _ _).2.trans (frameGuard_lblDealercounter s)⟩
      · exact absurd ⟨hev, (frameGuard_standEnabled s) ▸ hsg⟩ hstand
      · exact ⟨frameGuard_lblPlayercounter s, frameGuard_lblDealercounter s⟩
      · exact ⟨frameGuard_lblPlayercounter s, frameGuard_lblDealercounter s⟩
    refine ⟨by rw [hunch.1], by rw [hunch.2],
      fun _ => ⟨by rw [hunch.1], by rw [hunch.2]⟩, ?_⟩
    intro hev hst
    exact absurd ⟨hev, hst⟩ hstand

/-- C7 witness: a concrete dealer-won round (deal Twos, stand) bumps the
dealer tally by exactly 1. -/
theorem tally_updates_witness :
    counterNat ((step sTwos standFrame).getD init).lblDealercounter =
      counterNat sTwos.lblDealercounter + 1 :=
  (((tally_updates sTwos ((step sTwos standFrame).getD init) standFrame sTwos_reachable
    (by decide)).2.2.2 rfl (by decide)).2.1 (by decide)).1

/-- C8: every reachable transition follows the round cycle Idle →
PlayerTurn (via deal) → Settled (via stand, resolving the dealer turn
synchronously) → Idle (via replay), up to self-loops, and no other phase
change is reachable; moreover when the deal control is disabled, a deal
click does not fire: the frame equals a no-click frame (only the
top-of-loop hit guard runs). -/
theorem phase_transitions (s s' : GameState) (f : FrameInput)
    (hr : Reachable s) (hs : step s f = some s') :
    phaseStepOK (phase s) (phase s') ∧
    (phase s = Phase.idle → phase s' = Phase.playerTurn → f.event = Event.deal) ∧
    (phase s = Phase.playerTurn → phase s' = Phase.settled → f.event = Event.stand) ∧
    (phase s = Phase.settled → phase s' = Phase.idle → f.event = Event.replay) ∧
    (s.dealEnabled = false → f.event = Event.deal → s' = frameGuard s) := by
  have hinv := reachable_inv hr
  rcases step_cases hs with ⟨hev, hd, rfl⟩ | ⟨hev, hh, rfl⟩ | ⟨hev, hsg, hss⟩ |
    ⟨hev, hrp, rfl⟩ | rfl
  · have hd' : s.dealEnabled = true := (frameGuard_dealEnabled s) ▸ hd
    have hp1 : phase s = Phase.idle := by simp [phase, hd']
    have hp2 : phase (dealStep (frameGuard s) f) = Phase.playerTurn := by
      obtain ⟨hf1, -, hf3, -⟩ := dealStep_flags (frameGuard s) f
      simp [phase, hf1, hf3]
    rw [hp1, hp2]
    exact ⟨trivial, fun _ _ => hev, fun hh _ => absurd hh (by decide),
      fun hh _ => absurd hh (by decide),
      fun hdf _ => absurd (hd'.symm.trans hdf) (by decide)⟩
  · have hh' : s.hitEnabled = true := frameGuard_hitEnabled_true hh
    have hst' : s.standEnabled = true := (hinv.hit_stand hh').1
    obtain ⟨hde', -⟩ := hinv.stand_flags hst'
    have hp1 : phase s = Phase.playerTurn := by simp [phase, hde', hst']
    have hp2 : phase (hitStep (frameGuard s) f) = Phase.playerTurn := by
      obtain ⟨hf1, hf2, -⟩ := hitStep_flags (frameGuard s) f
      simp [phase, hf1, hf2, hde', hst']
    rw [hp1, hp2]
    exact ⟨trivial, fun hh _ => absurd hh (by decide), fun _ hh => absurd hh (by decide),
      fun hh _ => absurd hh (by decide),
      fun _ hevd => absurd (hev.symm.trans hevd) (by decide)⟩
  · have hst' : s.standEnabled = true := (frameGuard_standEnabled s) ▸ hsg
    obtain ⟨hde', -⟩ := hinv.stand_flags hst'
    have hp1 : phase s = Phase.playerTurn := by simp [phase, hde', hst']
    unfold standStep at hss
    split at hss <;> rename_i t hsettle
    · exact absurd hss (by simp)
    · obtain rfl := Option.some.inj hss
      have hdt : t.dealEnabled = false := by
        obtain ⟨-, -, ht, -⟩ := settleStep_some hsettle
        rw [ht, (dealerDraws_same (frameGuard s) f).2.2.1, frameGuard_dealEnabled, hde']
      have hp2 : phase ({ t with hitEnabled := false, standEnabled := false, replayEnabled := true }) = Phase.settled := by
        simp [phase, hdt]
      rw [hp1, hp2]
      exact ⟨trivial, fun hh _ => absurd hh (by decide), fun _ _ => hev,
        fun hh _ => absurd hh (by decide),
        fun _ hevd => absurd (hev.symm.trans hevd) (by decide)⟩
  · have hp2 : phase (replayStep (frameGuard s)) = Phase.idle := by simp [phase, replayStep]
    have hstand' : s.standEnabled = false := by
      cases hq : s.standEnabled with
      | false => rfl
      | true =>
        have hrp' : s.replayEnabled = true := (frameGuard_replayEnabled s) ▸ hrp
        exact absurd ((hinv.stand_flags hq).2) (by simp [hrp'])
    rw [hp2]
    by_cases hde : s.dealEnabled = true
    · have hp1 : phase s = Phase.idle := by simp [phase, hde]
      rw [hp1]
      exact ⟨trivial, fun _ hh => absurd hh (by decide), fun hh _ => absurd hh (by decide),
        fun hh _ => absurd hh (by decide),
        fun hdf _ => absurd (hde.symm.trans hdf) (by decide)⟩
    · have hde' : s.dealEnabled = false := by
        cases hq : s.dealEnabled with
        | false => rfl
        | true => exact absurd hq hde
      have hp1 : phase s = Phase.settled := by simp [phase, hde', hstand']
      rw [hp1]
      exact ⟨trivial, fun hh _ => absurd hh (by decide), fun hh _ => absurd hh (by decide),
        fun _ _ => hev, fun _ hevd => absurd (hev.symm.trans hevd) (by decide)⟩
  · have hp2 : phase (frameGuard s) = phase s := by
      simp [phase]
    rw [hp2]
    refine ⟨?_, ?_, ?_, ?_, fun _ _ => rfl⟩
    · cases phase s <;> trivial
    · intro hh hh'
      exact absurd (hh.symm.trans hh') (by decide)
    · intro hh hh'
      exact absurd (hh.symm.trans hh') (by decide)
    · intro hh hh'
      exact absurd (hh.symm.trans hh') (by decide)

/-- C8 witness: the theorem instantiated at the initial deal. -/
theorem phase_transitions_witness :
    phaseStepOK (phase init) (phase sAces) :=
  (phase_transitions init sAces dealAces Reachable.init (step_deal_eq rfl rfl)).1

end Blackjack
